import Mathlib

/-!
Shallow embedding of `gen_params.py` (damped mass–spring–damper oscillator
integrator) over the real numbers, together with theorems settling the
specification claims about it.

Source functions embedded here:
* `heun_step(m, c, k, x, v, dt)` with its inner closure `accel`;
* `integrate(m, c, k, x0, v0, dt)` returning `(times, xs, vs)`;
* the duration recomputation in `main` that is exported in `params.js`.

Python floats are idealised as real numbers.  Where the Python code raises,
or where its IEEE-754 special values (`inf`/`nan`) make it raise further
down, the embedding returns an explicit error value; each such branch is
documented at its definition with the concrete Python behaviour it models.
-/

namespace GenParams

noncomputable section

open Real

/-- Embedding of the inner closure `accel(px, pv)` of `heun_step`:
`-(c / m) * pv - (k / m) * px`. -/
def accel (m c k px pv : ℝ) : ℝ := -(c / m) * pv - (k / m) * px

/-- Embedding of `heun_step(m, c, k, x, v, dt)`: one step of Heun's method
(improved Euler) for `x' = v`, `v' = accel(x, v)`. -/
def heun_step (m c k x v dt : ℝ) : ℝ × ℝ :=
  let a1 := accel m c k x v
  let x_predict := x + dt * v
  let v_predict := v + dt * a1
  let a2 := accel m c k x_predict v_predict
  let x_next := x + dt * 0.5 * (v + v_predict)
  let v_next := v + dt * 0.5 * (a1 + a2)
  (x_next, v_next)

/-- Natural frequency `omega_n = np.sqrt(k / m)` as computed in `integrate`. -/
def omega_n (m k : ℝ) : ℝ := Real.sqrt (k / m)

/-- Damping ratio `zeta = c / (2 * np.sqrt(m * k))` as computed in `integrate`. -/
def zeta (m c k : ℝ) : ℝ := c / (2 * Real.sqrt (m * k))

/-- Simulation duration `duration = -np.log(0.01) / (zeta * omega_n)` as
computed in `integrate`: time for the decay envelope to reach 1% of the
initial amplitude. -/
def duration (m c k : ℝ) : ℝ := -Real.log 0.01 / (zeta m c k * omega_n m k)

/-- Embedding of `np.linspace(start, stop, num)` under exact real arithmetic:
`num` evenly spaced points from `start` to `stop` inclusive.  For `num < 2`
NumPy returns `[]` (num = 0) or `[start]` (num = 1); otherwise point `i` is
`start + i * ((stop - start) / (num - 1))`.  (NumPy overwrites the final
point with `stop` exactly; in exact arithmetic that coincides with the
formula, so no special case is needed for it.) -/
def linspace (start stop : ℝ) (num : ℕ) : List ℝ :=
  if num < 2 then (List.range num).map fun (_ : ℕ) => start
  else
    (List.range num).map fun (i : ℕ) =>
      start + (i : ℝ) * ((stop - start) / ((num : ℝ) - 1))

/-- The iterated state of the integration loop
`xs[i+1], vs[i+1] = heun_step(m, c, k, xs[i], vs[i], dt)` started from
`(x0, v0)`. -/
def heunIter (m c k dt x0 v0 : ℝ) : ℕ → ℝ × ℝ
  | 0 => (x0, v0)
  | n + 1 =>
      heun_step m c k (heunIter m c k dt x0 v0 n).1 (heunIter m c k dt x0 v0 n).2 dt

/-- The triple of arrays `(times, xs, vs)` returned by `integrate`. -/
structure Trajectory where
  times : List ℝ
  xs : List ℝ
  vs : List ℝ

/-- Errors the Python `integrate` can raise.  `valueError` covers both the
explicit `raise ValueError("dt must be positive.")` and the `ValueError`
raised by `int(nan)` / by `np.linspace` on a negative sample count;
`zeroDivisionError` is Python float division by zero; `overflowError` is
`int(inf)`; `indexError` is `xs[0]` on an empty array. -/
inductive PyError
  | valueError
  | zeroDivisionError
  | overflowError
  | indexError

/-- The trajectory `integrate` builds once it reaches the loop, for a step
count `n ≥ 0`: `times = np.linspace(0.0, steps * dt, steps + 1)`, and
`xs`/`vs` hold the iterates of `heun_step` from `(x0, v0)`. -/
def trajOf (m c k x0 v0 dt : ℝ) (n : ℕ) : Trajectory :=
  { times := linspace 0 ((n : ℝ) * dt) (n + 1)
    xs := (List.range (n + 1)).map fun i => (heunIter m c k dt x0 v0 i).1
    vs := (List.range (n + 1)).map fun i => (heunIter m c k dt x0 v0 i).2 }

/-- Embedding of `integrate(m, c, k, x0, v0, dt)`.  The branches mirror, in
source order, what the Python actually does on floats:

* `dt <= 0`: the explicit `raise ValueError("dt must be positive.")`.
* `m = 0`: `k / m` is Python float division by zero, `ZeroDivisionError`.
* `m * k ≤ 0` (with `m ≠ 0`): either `k` and `m` have opposite signs, so
  `np.sqrt(k / m)` and `np.sqrt(m * k)` are `nan`, or `k = 0`, so
  `zeta * omega_n` is `inf * 0 = nan` (or `nan` already from `0/0`); either
  way `duration` is `nan` and `int(np.ceil(nan / dt))` raises `ValueError`.
* `c = 0` (with `m * k > 0`): `zeta * omega_n = 0`, so
  `duration = -log(0.01) / 0.0 = inf` and `int(inf)` raises `OverflowError`.
* otherwise `duration` is an ordinary real and
  `steps = int(np.ceil(duration / dt))`:
  * `steps ≤ -2`: `np.linspace(0, steps * dt, steps + 1)` has a negative
    sample count and raises `ValueError`;
  * `steps = -1`: the arrays are empty and `xs[0] = x0` raises `IndexError`;
  * `steps ≥ 0`: the loop runs and the trajectory is returned. -/
def integrate (m c k x0 v0 dt : ℝ) : Except PyError Trajectory :=
  if dt ≤ 0 then .error .valueError
  else if m = 0 then .error .zeroDivisionError
  else if m * k ≤ 0 then .error .valueError
  else if c = 0 then .error .overflowError
  else if ⌈duration m c k / dt⌉ ≤ -2 then .error .valueError
  else if ⌈duration m c k / dt⌉ = -1 then .error .indexError
  else .ok (trajOf m c k x0 v0 dt (⌈duration m c k / dt⌉).toNat)

/-- Embedding of the duration recomputed in `main` (lines 118–121) and placed
in the exported parameter record:
`omega_n = np.sqrt(k / m)`, `zeta = c / (2 * np.sqrt(m * k))`,
`duration = -np.log(0.01) / (zeta * omega_n)`. -/
def main_duration (m c k : ℝ) : ℝ :=
  -Real.log 0.01 / ((c / (2 * Real.sqrt (m * k))) * Real.sqrt (k / m))

/-- The flat record `params` that `main` passes to `write_params_js`. -/
structure DampParams where
  m : ℝ
  c : ℝ
  k : ℝ
  y0 : ℝ
  v0 : ℝ
  dt : ℝ
  scale : ℝ
  duration : ℝ

/-- Embedding of the construction of the `params` dict in `main`. -/
def main_params (m c k y0 v0 dt scale : ℝ) : DampParams :=
  { m := m, c := c, k := k, y0 := y0, v0 := v0, dt := dt, scale := scale
    duration := main_duration m c k }

end

/-! ## Claim theorems about `heun_step` alone -/

/-- C1: for `m ≠ 0`, one call of `heun_step` returns exactly the Heun
predictor-corrector result: with `a1 = -(c/m)*v - (k/m)*x`,
`x_p = x + dt*v`, `v_p = v + dt*a1`, `a2 = -(c/m)*v_p - (k/m)*x_p`, it
returns `x_next = x + dt*0.5*(v + v_p)` and
`v_next = v + dt*0.5*(a1 + a2)`. -/
theorem heun_step_is_heun (m c k x v dt : ℝ) (hm : m ≠ 0) :
    heun_step m c k x v dt =
      (x + dt * 0.5 * (v + (v + dt * (-(c / m) * v - (k / m) * x))),
       v + dt * 0.5 * ((-(c / m) * v - (k / m) * x) +
         (-(c / m) * (v + dt * (-(c / m) * v - (k / m) * x)) -
           (k / m) * (x + dt * v)))) := rfl

/-- Witness for C1 at `m = 2, c = 3, k = 5, x = 1, v = 7, dt = 11`. -/
theorem heun_step_is_heun_witness :
    heun_step 2 3 5 1 7 11 =
      (1 + 11 * 0.5 * (7 + (7 + 11 * (-(3 / 2) * 7 - (5 / 2) * 1))),
       7 + 11 * 0.5 * ((-(3 / 2) * 7 - (5 / 2) * 1) +
         (-(3 / 2) * (7 + 11 * (-(3 / 2) * 7 - (5 / 2) * 1)) -
           (5 / 2) * (1 + 11 * 7)))) :=
  heun_step_is_heun 2 3 5 1 7 11 (by norm_num)

/-- C6: for `m ≠ 0`, `heun_step` with `c = 0` and `k = 0` reduces to pure
integration: velocity unchanged and displacement advanced linearly, and
after `n` steps from `(x0, v0)` the state is exactly
`(x0 + n*dt*v0, v0)`. -/
theorem heun_step_pure_integration (m x v dt x0 v0 : ℝ) (hm : m ≠ 0) :
    heun_step m 0 0 x v dt = (x + dt * v, v) ∧
    ∀ n : ℕ, heunIter m 0 0 dt x0 v0 n = (x0 + (n : ℝ) * dt * v0, v0) := by
  have hstep : ∀ a b : ℝ, heun_step m 0 0 a b dt = (a + dt * b, b) := by
    intro a b
    simp only [heun_step, accel, zero_div, neg_zero, zero_mul, sub_zero, mul_zero,
      add_zero, zero_sub, neg_mul, Prod.mk.injEq]
    constructor <;> ring
  refine ⟨hstep x v, ?_⟩
  intro n
  induction n with
  | zero => simp [heunIter]
  | succ n ih =>
      rw [heunIter, ih, hstep]
      push_cast
      rw [Prod.mk.injEq]
      constructor <;> ring

/-- Witness for C6 at `m = 3, x = 1, v = 2, dt = 5, x0 = 7, v0 = 11`. -/
theorem heun_step_pure_integration_witness :
    heun_step 3 0 0 1 2 5 = (1 + 5 * 2, 2) ∧
    ∀ n : ℕ, heunIter 3 0 0 5 7 11 n = (7 + (n : ℝ) * 5 * 11, 11) :=
  heun_step_pure_integration 3 1 2 5 7 11 (by norm_num)

/-- C10: for every fixed `(m, c, k, dt)` with `m ≠ 0`, `heun_step` is a
linear map of the state `(x, v)`: it sends the zero state to `(0, 0)`, is
additive, and is homogeneous. -/
theorem heun_step_linear (m c k dt : ℝ) (hm : m ≠ 0) :
    heun_step m c k 0 0 dt = (0, 0) ∧
    (∀ x1 v1 x2 v2 : ℝ,
      heun_step m c k (x1 + x2) (v1 + v2) dt =
        ((heun_step m c k x1 v1 dt).1 + (heun_step m c k x2 v2 dt).1,
         (heun_step m c k x1 v1 dt).2 + (heun_step m c k x2 v2 dt).2)) ∧
    (∀ a x v : ℝ,
      heun_step m c k (a * x) (a * v) dt =
        (a * (heun_step m c k x v dt).1, a * (heun_step m c k x v dt).2)) := by
  refine ⟨?_, ?_, ?_⟩
  · simp only [heun_step, accel, Prod.mk.injEq]
    constructor <;> ring
  · intro x1 v1 x2 v2
    simp only [heun_step, accel, Prod.mk.injEq]
    constructor <;> ring
  · intro a x v
    simp only [heun_step, accel, Prod.mk.injEq]
    constructor <;> ring

/-- Witness for C10 at `m = 2, c = 3, k = 5, dt = 7`. -/
theorem heun_step_linear_witness :
    heun_step 2 3 5 0 0 7 = (0, 0) ∧
    (∀ x1 v1 x2 v2 : ℝ,
      heun_step 2 3 5 (x1 + x2) (v1 + v2) 7 =
        ((heun_step 2 3 5 x1 v1 7).1 + (heun_step 2 3 5 x2 v2 7).1,
         (heun_step 2 3 5 x1 v1 7).2 + (heun_step 2 3 5 x2 v2 7).2)) ∧
    (∀ a x v : ℝ,
      heun_step 2 3 5 (a * x) (a * v) 7 =
        (a * (heun_step 2 3 5 x v 7).1, a * (heun_step 2 3 5 x v 7).2)) :=
  heun_step_linear 2 3 5 7 (by norm_num)

/-! ## Closed forms for the derived quantities -/

/-- Auxiliary: for positive `m` and `k` the decay rate `zeta * omega_n`
collapses to `c / (2 * m)`. -/
theorem zeta_mul_omega_n (m c k : ℝ) (hm : 0 < m) (hk : 0 < k) :
    zeta m c k * omega_n m k = c / (2 * m) := by
  have hsm : (0 : ℝ) < Real.sqrt m := Real.sqrt_pos.mpr hm
  have hsk : (0 : ℝ) < Real.sqrt k := Real.sqrt_pos.mpr hk
  have hmm : Real.sqrt m * Real.sqrt m = m := Real.mul_self_sqrt hm.le
  rw [zeta, omega_n, Real.sqrt_mul hm.le, Real.sqrt_div hk.le]
  field_simp
  linear_combination (-2 : ℝ) * c * Real.sqrt k * hmm

/-- Auxiliary: `-log 0.01 = log 100`. -/
theorem neg_log_hundredth : -Real.log 0.01 = Real.log 100 := by
  rw [show (0.01 : ℝ) = 100⁻¹ by norm_num, Real.log_inv, neg_neg]

/-- Auxiliary: closed form of the duration for positive `m` and `k`. -/
theorem duration_closed (m c k : ℝ) (hm : 0 < m) (hk : 0 < k) :
    duration m c k = 2 * m * Real.log 100 / c := by
  rw [duration, zeta_mul_omega_n m c k hm hk, neg_log_hundredth, div_div_eq_mul_div]
  ring

/-- Auxiliary: `log 100 = 2 * log 10`. -/
theorem log_hundred_eq : Real.log 100 = 2 * Real.log 10 := by
  rw [show (100 : ℝ) = 10 ^ 2 by norm_num, Real.log_pow]
  push_cast
  ring

/-- Auxiliary rational bounds on `log (5/4)`, from the Taylor remainder
estimate for `log (1 - x)` at `x = -1/4` with 6 terms. -/
theorem log_five_quarter_bounds :
    (27409 : ℝ) / 122880 ≤ Real.log (5 / 4) ∧ Real.log (5 / 4) ≤ 27429 / 122880 := by
  have h := Real.abs_log_sub_add_sum_range_le
    (x := -(1 / 4 : ℝ)) (by rw [abs_neg, abs_of_nonneg] <;> norm_num) 6
  rw [show (1 : ℝ) - -(1 / 4) = 5 / 4 by norm_num] at h
  rw [show |(-(1 / 4) : ℝ)| = 1 / 4 by rw [abs_neg, abs_of_nonneg] ; norm_num] at h
  simp only [Finset.sum_range_succ, Finset.sum_range_zero] at h
  norm_num at h
  rw [abs_le] at h
  constructor <;> linarith [h.1, h.2]

/-- Auxiliary decimal bounds on `log 10`, via `log 10 = 3 log 2 + log (5/4)`. -/
theorem log_ten_bounds : 2.302 < Real.log 10 ∧ Real.log 10 ≤ 2.303 := by
  have h2l := Real.log_two_gt_d9
  have h2u := Real.log_two_lt_d9
  have h54 := log_five_quarter_bounds
  have h10 : Real.log 10 = 3 * Real.log 2 + Real.log (5 / 4) := by
    rw [show (10 : ℝ) = 2 ^ 3 * (5 / 4) by norm_num,
        Real.log_mul (by norm_num) (by norm_num), Real.log_pow]
    push_cast
    ring
  rw [h10]
  constructor
  · nlinarith [h2l, h54.1]
  · nlinarith [h2u, h54.2]

/-- C2: for `m, k, c > 0` the duration computed by the integrator is exactly
`-ln(0.01) / (zeta * omega_n)` with `omega_n = sqrt(k/m)` and
`zeta = c / (2 sqrt(m k))`, and it is the time at which the exponential
envelope `exp(-zeta * omega_n * t)` has decayed to 1% of the initial
amplitude. -/
theorem duration_is_decay_time (m c k : ℝ) (hm : 0 < m) (hk : 0 < k) (hc : 0 < c) :
    duration m c k =
      -Real.log 0.01 / ((c / (2 * Real.sqrt (m * k))) * Real.sqrt (k / m)) ∧
    Real.exp (-(zeta m c k * omega_n m k) * duration m c k) = 0.01 := by
  refine ⟨rfl, ?_⟩
  have hzw := zeta_mul_omega_n m c k hm hk
  have hne : zeta m c k * omega_n m k ≠ 0 := by
    rw [hzw]
    exact (div_pos hc (by linarith)).ne'
  have hcollapse :
      -(zeta m c k * omega_n m k) * (-Real.log 0.01 / (zeta m c k * omega_n m k)) =
        Real.log 0.01 := by
    field_simp
  rw [duration, hcollapse, Real.exp_log (by norm_num)]

/-- Witness for C2 at `m = 1, c = 1, k = 1`. -/
theorem duration_is_decay_time_witness :
    duration 1 1 1 =
      -Real.log 0.01 / ((1 / (2 * Real.sqrt (1 * 1))) * Real.sqrt (1 / 1)) ∧
    Real.exp (-(zeta 1 1 1 * omega_n 1 1) * duration 1 1 1) = 0.01 :=
  duration_is_decay_time 1 1 1 (by norm_num) (by norm_num) (by norm_num)

/-- C7: for fixed `m, k > 0` and `0 < c1 < c2` the duration is positive at
both damping values and strictly smaller at the larger damping. -/
theorem duration_pos_strict_anti (m k c1 c2 : ℝ) (hm : 0 < m) (hk : 0 < k)
    (hc1 : 0 < c1) (hc12 : c1 < c2) :
    0 < duration m c1 k ∧ 0 < duration m c2 k ∧
      duration m c2 k < duration m c1 k := by
  have hlog : 0 < Real.log 100 := Real.log_pos (by norm_num)
  have hc2 : 0 < c2 := lt_trans hc1 hc12
  rw [duration_closed m c1 k hm hk, duration_closed m c2 k hm hk]
  refine ⟨by positivity, by positivity, ?_⟩
  exact div_lt_div_of_pos_left (by positivity) hc1 hc12

/-- Witness for C7 at `m = 1, k = 1, c1 = 1, c2 = 2`. -/
theorem duration_pos_strict_anti_witness :
    0 < duration 1 1 1 ∧ 0 < duration 1 2 1 ∧ duration 1 2 1 < duration 1 1 1 :=
  duration_pos_strict_anti 1 1 1 2 (by norm_num) (by norm_num) (by norm_num) (by norm_num)

/-- C9: the duration placed in the exported parameter record by `main` is the
same function of `(m, c, k)` as the duration computed inside `integrate`,
namely `-ln(0.01) / ((c / (2 sqrt(m k))) * sqrt(k/m))`. -/
theorem main_duration_matches_integrate (m c k y0 v0 dt scale : ℝ) :
    (main_params m c k y0 v0 dt scale).duration = duration m c k ∧
    (main_params m c k y0 v0 dt scale).duration =
      -Real.log 0.01 / ((c / (2 * Real.sqrt (m * k))) * Real.sqrt (k / m)) :=
  ⟨rfl, rfl⟩

/-! ## Structure of the trajectory produced by `integrate` -/

/-- Auxiliary: `linspace` always returns `num` points. -/
theorem linspace_length (a b : ℝ) (n : ℕ) : (linspace a b n).length = n := by
  rw [linspace]
  split <;> rw [List.length_map, List.length_range]

/-- Auxiliary: the time grid `np.linspace(0, n * dt, n + 1)` has `i * dt` at
index `i`. -/
theorem linspace_zero_get (dt : ℝ) (n i : ℕ) (hi : i < n + 1) :
    (linspace 0 ((n : ℝ) * dt) (n + 1))[i]? = some ((i : ℝ) * dt) := by
  rcases Nat.eq_zero_or_pos n with h0 | hpos
  · subst h0
    have hi0 : i = 0 := by omega
    subst hi0
    simp [linspace, List.range_succ]
  · rw [linspace, if_neg (by omega)]
    have hr : (List.range (n + 1))[i]? = some i := by
      simp [List.getElem?_range, hi]
    rw [List.getElem?_map, hr, Option.map_some']
    have hn : ((n : ℝ)) ≠ 0 := Nat.cast_ne_zero.mpr (by omega)
    congr 1
    push_cast
    field_simp

/-- Auxiliary: entry `i` of the displacement array of `trajOf`. -/
theorem trajOf_xs_get (m c k x0 v0 dt : ℝ) (n i : ℕ) (hi : i < n + 1) :
    (trajOf m c k x0 v0 dt n).xs[i]? = some (heunIter m c k dt x0 v0 i).1 := by
  simp [trajOf, List.getElem?_map, List.getElem?_range, hi]

/-- Auxiliary: entry `i` of the velocity array of `trajOf`. -/
theorem trajOf_vs_get (m c k x0 v0 dt : ℝ) (n i : ℕ) (hi : i < n + 1) :
    (trajOf m c k x0 v0 dt n).vs[i]? = some (heunIter m c k dt x0 v0 i).2 := by
  simp [trajOf, List.getElem?_map, List.getElem?_range, hi]

/-- Auxiliary: when every guard of `integrate` passes and the step count is
nonnegative, `integrate` returns the trajectory of the loop. -/
theorem integrate_eq_ok (m c k x0 v0 dt : ℝ) (hdt : 0 < dt) (hm : m ≠ 0)
    (hmk : 0 < m * k) (hc : c ≠ 0) (hsteps : 0 ≤ ⌈duration m c k / dt⌉) :
    integrate m c k x0 v0 dt =
      Except.ok (trajOf m c k x0 v0 dt (⌈duration m c k / dt⌉).toNat) := by
  rw [integrate, if_neg (not_le.mpr hdt), if_neg hm, if_neg (not_le.mpr hmk),
      if_neg hc, if_neg (by omega), if_neg (by omega)]

/-- Auxiliary: the duration is positive for positive `m`, `k`, `c`. -/
theorem duration_pos (m c k : ℝ) (hm : 0 < m) (hk : 0 < k) (hc : 0 < c) :
    0 < duration m c k := by
  rw [duration_closed m c k hm hk]
  have hlog : 0 < Real.log 100 := Real.log_pos (by norm_num)
  positivity

/-- C5: for valid input the trajectory has exactly `N + 1` samples with
`N = ceil(duration / dt)`, its time grid is `t[i] = i * dt` starting at
`t[0] = 0`, sample `0` is `(x0, v0)`, and each next sample is one
`heun_step` of the previous one. -/
theorem integrate_trajectory_structure (m c k x0 v0 dt : ℝ)
    (hm : 0 < m) (hk : 0 < k) (hc : 0 < c) (hdt : 0 < dt) :
    ∃ tr : Trajectory, integrate m c k x0 v0 dt = Except.ok tr ∧
      (tr.times.length : ℤ) = ⌈duration m c k / dt⌉ + 1 ∧
      tr.xs.length = tr.times.length ∧
      tr.vs.length = tr.times.length ∧
      tr.times[0]? = some 0 ∧
      (∀ i : ℕ, i < tr.times.length → tr.times[i]? = some ((i : ℝ) * dt)) ∧
      tr.xs[0]? = some x0 ∧ tr.vs[0]? = some v0 ∧
      (∀ i : ℕ, i + 1 < tr.times.length → ∃ xi vi : ℝ,
        tr.xs[i]? = some xi ∧ tr.vs[i]? = some vi ∧
        tr.xs[i + 1]? = some (heun_step m c k xi vi dt).1 ∧
        tr.vs[i + 1]? = some (heun_step m c k xi vi dt).2) := by
  have hdur : 0 < duration m c k := duration_pos m c k hm hk hc
  have hceil : 0 < ⌈duration m c k / dt⌉ := Int.ceil_pos.mpr (div_pos hdur hdt)
  set N : ℕ := (⌈duration m c k / dt⌉).toNat with hN
  have hNceil : (N : ℤ) = ⌈duration m c k / dt⌉ := Int.toNat_of_nonneg hceil.le
  have hlen : (trajOf m c k x0 v0 dt N).times.length = N + 1 := by
    simp [trajOf, linspace_length]
  refine ⟨trajOf m c k x0 v0 dt N,
    integrate_eq_ok m c k x0 v0 dt hdt hm.ne' (mul_pos hm hk) hc.ne' hceil.le,
    ?_, ?_, ?_, ?_, ?_, ?_, ?_, ?_⟩
  · rw [hlen]
    push_cast [hNceil]
    ring
  · simp [trajOf, linspace_length]
  · simp [trajOf, linspace_length]
  · have h0 : (0 : ℕ) < N + 1 := by omega
    have := linspace_zero_get dt N 0 h0
    simpa [trajOf] using this
  · intro i hi
    rw [hlen] at hi
    exact linspace_zero_get dt N i hi
  · have h0 : (0 : ℕ) < N + 1 := by omega
    simpa [heunIter] using trajOf_xs_get m c k x0 v0 dt N 0 h0
  · have h0 : (0 : ℕ) < N + 1 := by omega
    simpa [heunIter] using trajOf_vs_get m c k x0 v0 dt N 0 h0
  · intro i hi
    rw [hlen] at hi
    have hii : i < N + 1 := by omega
    refine ⟨(heunIter m c k dt x0 v0 i).1, (heunIter m c k dt x0 v0 i).2,
      trajOf_xs_get m c k x0 v0 dt N i hii,
      trajOf_vs_get m c k x0 v0 dt N i hii, ?_, ?_⟩
    · rw [trajOf_xs_get m c k x0 v0 dt N (i + 1) hi]
      rfl
    · rw [trajOf_vs_get m c k x0 v0 dt N (i + 1) hi]
      rfl

/-- Witness for C5 at `m = 1, c = 1, k = 1, x0 = 1, v0 = 0, dt = 1`. -/
theorem integrate_trajectory_structure_witness :
    ∃ tr : Trajectory, integrate 1 1 1 1 0 1 = Except.ok tr ∧
      (tr.times.length : ℤ) = ⌈duration 1 1 1 / 1⌉ + 1 ∧
      tr.xs.length = tr.times.length ∧
      tr.vs.length = tr.times.length ∧
      tr.times[0]? = some 0 ∧
      (∀ i : ℕ, i < tr.times.length → tr.times[i]? = some ((i : ℝ) * 1)) ∧
      tr.xs[0]? = some 1 ∧ tr.vs[0]? = some 0 ∧
      (∀ i : ℕ, i + 1 < tr.times.length → ∃ xi vi : ℝ,
        tr.xs[i]? = some xi ∧ tr.vs[i]? = some vi ∧
        tr.xs[i + 1]? = some (heun_step 1 1 1 xi vi 1).1 ∧
        tr.vs[i + 1]? = some (heun_step 1 1 1 xi vi 1).2) :=
  integrate_trajectory_structure 1 1 1 1 0 1
    (by norm_num) (by norm_num) (by norm_num) (by norm_num)

/-! ## Concrete scenarios and the unvalidated branches -/

/-- Auxiliary: `log 100` lies strictly between 4 and 5. -/
theorem log_hundred_bounds : 4 < Real.log 100 ∧ Real.log 100 < 5 := by
  have h := log_ten_bounds
  rw [log_hundred_eq]
  constructor <;> linarith [h.1, h.2]

/-- C8: for `m = 1, c = 0.4, k = 4, x0 = 1, v0 = 0, dt = 0.01` the derived
quantities are `omega_n = 2`, `zeta = 0.1`, the duration is
`-ln(0.01) / (0.1 * 2)`, and the trajectory has `2303 + 1 = 2304` samples
whose first sample is `(1, 0)`. -/
theorem concrete_scenario :
    omega_n 1 4 = 2 ∧ zeta 1 0.4 4 = 0.1 ∧
    duration 1 0.4 4 = -Real.log 0.01 / (0.1 * 2) ∧
    integrate 1 0.4 4 1 0 0.01 = Except.ok (trajOf 1 0.4 4 1 0 0.01 2303) ∧
    (trajOf 1 0.4 4 1 0 0.01 2303).times.length = 2304 ∧
    (trajOf 1 0.4 4 1 0 0.01 2303).xs.length = 2304 ∧
    (trajOf 1 0.4 4 1 0 0.01 2303).vs.length = 2304 ∧
    (trajOf 1 0.4 4 1 0 0.01 2303).xs[0]? = some 1 ∧
    (trajOf 1 0.4 4 1 0 0.01 2303).vs[0]? = some 0 := by
  have homega : omega_n 1 4 = 2 := by
    rw [omega_n, show (4 : ℝ) / 1 = 2 ^ 2 by norm_num,
        Real.sqrt_sq (by norm_num : (0 : ℝ) ≤ 2)]
  have hzeta : zeta 1 0.4 4 = 0.1 := by
    rw [zeta, show (1 : ℝ) * 4 = 2 ^ 2 by norm_num,
        Real.sqrt_sq (by norm_num : (0 : ℝ) ≤ 2)]
    norm_num
  have hdur : duration 1 0.4 4 = -Real.log 0.01 / (0.1 * 2) := by
    rw [duration, hzeta, homega]
  have hdiv : duration 1 0.4 4 / 0.01 = 1000 * Real.log 10 := by
    rw [hdur, neg_log_hundredth, log_hundred_eq]
    ring
  have hlog := log_ten_bounds
  have hceil : ⌈duration 1 0.4 4 / 0.01⌉ = 2303 := by
    rw [hdiv, Int.ceil_eq_iff]
    constructor
    · push_cast
      linarith [hlog.1]
    · push_cast
      linarith [hlog.2]
  have hint : integrate 1 0.4 4 1 0 0.01 = Except.ok (trajOf 1 0.4 4 1 0 0.01 2303) := by
    have h := integrate_eq_ok 1 0.4 4 1 0 0.01 (by norm_num) (by norm_num)
      (by norm_num) (by norm_num) (by rw [hceil]; norm_num)
    rw [hceil] at h
    simpa using h
  refine ⟨homega, hzeta, hdur, hint, ?_, ?_, ?_, ?_, ?_⟩
  · simp [trajOf, linspace_length]
  · simp [trajOf]
  · simp [trajOf]
  · simpa [heunIter] using trajOf_xs_get 1 0.4 4 1 0 0.01 2303 0 (by norm_num)
  · simpa [heunIter] using trajOf_vs_get 1 0.4 4 1 0 0.01 2303 0 (by norm_num)

/-- C3 (behaviour of the code at non-positive damping, `m = k = 1`,
`dt = 1/100`): at `c = 0` the code computes `duration = inf` and dies with
`OverflowError` from `int(inf)` — there is no guarded `DomainError` — and at
`c = -1000` it raises nothing and silently returns a one-sample trajectory. -/
theorem integrate_c_nonpos_behavior :
    integrate 1 0 1 1 0 (1 / 100) = Except.error PyError.overflowError ∧
    integrate 1 (-1000) 1 1 0 (1 / 100) =
      Except.ok (trajOf 1 (-1000) 1 1 0 (1 / 100) 0) ∧
    (trajOf 1 (-1000) 1 1 0 (1 / 100) 0).times = [0] ∧
    (trajOf 1 (-1000) 1 1 0 (1 / 100) 0).xs = [1] ∧
    (trajOf 1 (-1000) 1 1 0 (1 / 100) 0).vs = [0] := by
  have hc0 : integrate 1 0 1 1 0 (1 / 100) = Except.error PyError.overflowError := by
    rw [integrate, if_neg (by norm_num), if_neg (by norm_num), if_neg (by norm_num),
        if_pos rfl]
  have hdur : duration 1 (-1000) 1 = -Real.log 100 / 500 := by
    rw [duration_closed 1 (-1000) 1 (by norm_num) (by norm_num)]
    ring
  have hceil : ⌈duration 1 (-1000) 1 / (1 / 100)⌉ = 0 := by
    have hlb := log_hundred_bounds
    have hq : duration 1 (-1000) 1 / (1 / 100) = -Real.log 100 / 5 := by
      rw [hdur]
      ring
    rw [hq, Int.ceil_eq_iff]
    constructor
    · push_cast
      linarith [hlb.2]
    · push_cast
      linarith [hlb.1]
  have hint : integrate 1 (-1000) 1 1 0 (1 / 100) =
      Except.ok (trajOf 1 (-1000) 1 1 0 (1 / 100) 0) := by
    have h := integrate_eq_ok 1 (-1000) 1 1 0 (1 / 100) (by norm_num) (by norm_num)
      (by norm_num) (by norm_num) (by rw [hceil])
    rw [hceil] at h
    simpa using h
  refine ⟨hc0, hint, ?_, ?_, ?_⟩
  · simp [trajOf, linspace, List.range_succ]
  · simp [trajOf, List.range_succ, heunIter]
  · simp [trajOf, List.range_succ, heunIter]

/-- C4 counterexample: `m = -1 ≤ 0` and `k = -1 ≤ 0` with `c = 2`, `dt = 1`,
yet `integrate` rejects nothing and produces a full six-sample trajectory. -/
theorem integrate_missing_mk_validation :
    integrate (-1) 2 (-1) 1 0 1 = Except.ok (trajOf (-1) 2 (-1) 1 0 1 5) ∧
    (trajOf (-1) 2 (-1) 1 0 1 5).xs.length = 6 := by
  have hz : zeta (-1) 2 (-1) * omega_n (-1) (-1) = 1 := by
    rw [zeta, omega_n]
    norm_num [Real.sqrt_one]
  have hdur : duration (-1) 2 (-1) = Real.log 100 := by
    rw [duration, hz, div_one, neg_log_hundredth]
  have hceil : ⌈duration (-1) 2 (-1) / 1⌉ = 5 := by
    have hlb := log_hundred_bounds
    rw [div_one, hdur, Int.ceil_eq_iff]
    constructor
    · push_cast
      linarith [hlb.1]
    · push_cast
      linarith [hlb.2]
  have h := integrate_eq_ok (-1) 2 (-1) 1 0 1 (by norm_num) (by norm_num)
    (by norm_num) (by norm_num) (by rw [hceil]; norm_num)
  rw [hceil] at h
  exact ⟨by simpa using h, by simp [trajOf]⟩

/-- C4 amended: every input with `dt ≤ 0` is rejected with the explicit
`ValueError` before any integration work begins. -/
theorem integrate_rejects_nonpositive_dt (m c k x0 v0 dt : ℝ) (h : dt ≤ 0) :
    integrate m c k x0 v0 dt = Except.error PyError.valueError := by
  rw [integrate, if_pos h]

/-- Witness for the amended C4 at `dt = 0`. -/
theorem integrate_rejects_nonpositive_dt_witness :
    integrate 1 2 3 4 5 0 = Except.error PyError.valueError :=
  integrate_rejects_nonpositive_dt 1 2 3 4 5 0 (by norm_num)

end GenParams
